import Mathlib

/-!
Shallow embedding of the nimbus bridge (williamsharkey/nimbus).

Embedded source:
* `src/workers/Worker.ts` — screen differencing (`captureOutput`),
  activity classification (`detectStatus`), log truncation (`addLog`),
  explicit control actions (`sendMessage`, `interrupt`).
* `src/server/ws.ts` — the correlation hub: bridge registry
  (`skyeyesBridges`), liveness (`aliveBridges`, `bridgePingTimer`),
  pending completions (`pendingEvals`), the `skyeyes_result` message
  handler, `sendToSkyeyes`, `waitForSkyeyesResult`, `getSkyeyesStatus`,
  and the bridge `close` handler.
* `src/server/routes.ts` — the `POST /api/skyeyes/:page/exec` route.
* `src/server/index.ts` — config normalization (`maxLogEntries || 500`).

Strings are modelled as `List Char` (`Str`) so every operation is a
structurally recursive, kernel-evaluable function.  JavaScript `Map`s
are association lists with unique keys, `Set`/`WeakSet`s are lists of
identifiers, and side effects (closing sockets, resolving promises,
broadcasting) are reified as emitted `HubAction`s.
-/

namespace Nimbus

/-- Character-list strings, so that all operations reduce in the kernel. -/
abbrev Str := List Char

/-- JavaScript `String.prototype.trim()`: strip whitespace at both ends. -/
def jsTrim (s : Str) : Str :=
  ((s.dropWhile Char.isWhitespace).reverse.dropWhile Char.isWhitespace).reverse

/-- JavaScript `s.split("\n")`: split on newline, keeping empty pieces. -/
def splitNl (s : Str) : List Str :=
  s.foldr
    (fun c acc =>
      match acc with
      | [] => if c = '\n' then [[], []] else [[c]]
      | l :: ls => if c = '\n' then [] :: l :: ls else (c :: l) :: ls)
    [[]]

/-- Join a list of lines with `"\n"` (JavaScript `Array.prototype.join`). -/
def joinNl (ls : List Str) : Str :=
  List.intercalate ['\n'] ls

/-- Substring test (JavaScript `String.prototype.includes`). -/
def containsSeq (pat : Str) : Str → Bool
  | [] => pat.isEmpty
  | c :: cs => pat.isPrefixOf (c :: cs) || containsSeq pat cs

/-! Section: `Worker.captureOutput` — screen differencing (src/workers/Worker.ts). -/

/-- The expression `text.split("\n").filter((l) => l.trim()).join("\n")` from
`Worker.captureOutput`: drop blank lines, rejoin with newlines. -/
def filterJoin (s : Str) : Str :=
  joinNl ((splitNl s).filter (fun l => !(jsTrim l).isEmpty))

/-- The diff step of `Worker.captureOutput`: given the previous rendered
screen text and the new one, compute `newContent`.  When the previous
blank-line-filtered text is a prefix of the new one, the content is the
trimmed suffix; otherwise it is the whole filtered new text. -/
def computeNewContent (prev new_ : Str) : Str :=
  if prev.isEmpty then filterJoin new_
  else
    let oldJoined := filterJoin prev
    let newJoined := filterJoin new_
    if oldJoined.isPrefixOf newJoined then
      jsTrim (newJoined.drop oldJoined.length)
    else newJoined

/-- The emission decision of `Worker.captureOutput`: nothing is emitted
when the screen is unchanged or the computed content is empty; otherwise
the computed content is emitted as one `"output"` log entry. -/
def captureEmit (prev new_ : Str) : Option Str :=
  if new_ = prev then none
  else
    let c := computeNewContent prev new_
    if c.isEmpty then none else some c

/-- Version of `captureEmit` on `String` arguments and result, for readable statements. -/
def captureEmitS (prev new_ : String) : Option String :=
  (captureEmit prev.data new_.data).map List.asString

/-! Section: `Worker.detectStatus` — activity classification (src/workers/Worker.ts). -/

/-- Worker status values from src/workers/types.ts. -/
inductive WorkerStatus where
  | idle
  | working
  | error
  | interrupted
  | starting
deriving DecidableEq, Repr

/-- JavaScript word character (`\w` in the regex): ASCII letter, digit or
underscore. -/
def isWordChar (c : Char) : Bool :=
  c.isAlphanum || c = '_'

/-- A `\b` boundary holds at a position whose neighbouring character on the given side
is absent or not a word character. -/
def boundaryOk : Option Char → Bool
  | none => true
  | some c => !isWordChar c

/-- One candidate match position for `\bword\b`: `word` is a prefix of the
remaining text, the preceding character (if any) is not a word character,
and neither is the character right after the match. -/
def wordAt (word : Str) (prevc : Option Char) (s : Str) : Bool :=
  word.isPrefixOf s && boundaryOk prevc &&
    (match s.drop word.length with
     | [] => true
     | c :: _ => !isWordChar c)

/-- Test of `new RegExp("\\b" + word + "\\b")` against `s`: some position of `s`
matches `word` between word boundaries. -/
def hasWord (word : Str) : Option Char → Str → Bool
  | _, [] => false
  | prevc, c :: cs => wordAt word prevc (c :: cs) || hasWord word (some c) cs

/-- The recognized tool-name tokens of `Worker.detectStatus`. -/
def toolNames : List Str :=
  ["Read".data, "Bash".data, "Edit".data, "Write".data,
   "Grep".data, "Glob".data, "Task".data]

/-- One line's contribution to `hasPrompt` in `Worker.detectStatus`:
the trimmed line contains `❯`, or matches `/^>\s*$/`. -/
def promptLine (line : Str) : Bool :=
  let trimmed := jsTrim line
  trimmed.contains '❯' ||
    (match trimmed with
     | '>' :: rest => rest.all Char.isWhitespace
     | _ => false)

/-- One line's contribution to `hasToolActivity` in `Worker.detectStatus`:
`/\b(Read|Bash|Edit|Write|Grep|Glob|Task)\b/` matches the trimmed line and
the trimmed line does not contain `"Try "`. -/
def toolLine (line : Str) : Bool :=
  let trimmed := jsTrim line
  (toolNames.any (fun w => hasWord w none trimmed)) &&
    !containsSeq "Try ".data trimmed

/-- The non-blank lines of the rendered screen
(`cleanOutput.split("\n").filter((l) => l.trim())`). -/
def screenLines (cleanOutput : Str) : List Str :=
  (splitNl cleanOutput).filter (fun l => !(jsTrim l).isEmpty)

/-- JavaScript `lines.slice(-10)`: the trailing (up to) ten lines. -/
def tailLines (lines : List Str) : List Str :=
  lines.drop (lines.length - 10)

/-- The method `Worker.detectStatus`, restricted to its effect on `state.status`:
given the current status and the rendered screen text, return the status
after the classifier tick. -/
def detectStatus (status : WorkerStatus) (cleanOutput : Str) : WorkerStatus :=
  let lines := screenLines cleanOutput
  if lines.isEmpty then status
  else
    let tail := tailLines lines
    let hasPrompt := tail.any promptLine
    let hasToolActivity := tail.any toolLine
    if hasPrompt && !hasToolActivity then
      if status ≠ WorkerStatus.idle ∧ status ≠ WorkerStatus.interrupted then
        WorkerStatus.idle
      else status
    else if hasToolActivity && status = WorkerStatus.idle then
      WorkerStatus.working
    else status

/-- Version of `detectStatus` on a `String` screen, for readable statements. -/
def detectStatusS (status : WorkerStatus) (cleanOutput : String) : WorkerStatus :=
  detectStatus status cleanOutput.data

/-- The operations that drive a worker's status between classifier ticks:
a capture-tick classification, an explicit `sendMessage`, or an explicit
`interrupt` (src/workers/Worker.ts). -/
inductive WorkerOp where
  | classify (screen : Str)
  | send (text : Str)
  | interrupt
deriving DecidableEq

/-- Status effect of one operation: `detectStatus` for a classifier tick,
`sendMessage` sets `"working"`, `interrupt` sets `"interrupted"`. -/
def applyOp (status : WorkerStatus) : WorkerOp → WorkerStatus
  | WorkerOp.classify s => detectStatus status s
  | WorkerOp.send _ => WorkerStatus.working
  | WorkerOp.interrupt => WorkerStatus.interrupted

/-- Whether an operation is an explicit send. -/
def isSend : WorkerOp → Bool
  | WorkerOp.send _ => true
  | _ => false

/-! Section: `Worker.addLog` — log truncation (src/workers/Worker.ts). -/

/-- Log entries from src/workers/types.ts. -/
structure LogEntry where
  timestamp : Nat
  type : String
  content : String
  toolName : Option String
deriving DecidableEq, Repr

/-- JavaScript `arr.slice(-n)`: the last `n` elements — except that
`slice(-0)` is `slice(0)`, the whole array. -/
def jsSliceLast (n : Nat) (l : List LogEntry) : List LogEntry :=
  if n = 0 then l else l.drop (l.length - n)

/-- The method `Worker.addLog`: push the entry, then truncate to the most recent
`maxLogEntries` entries when the length exceeds `maxLogEntries`. -/
def addLog (maxLogEntries : Nat) (log : List LogEntry) (e : LogEntry) :
    List LogEntry :=
  let log₁ := log ++ [e]
  if maxLogEntries < log₁.length then jsSliceLast maxLogEntries log₁ else log₁

/-- Config normalization in src/server/index.ts:
`maxLogEntries: rawConfig.maxLogEntries || 500` (0 is falsy). -/
def configMaxLogEntries (raw : Nat) : Nat :=
  if raw = 0 then 500 else raw

/-! Section: the correlation hub — src/server/ws.ts.

JavaScript `Map`s become association lists with unique keys
(a `Map` holds at most one value per key), the `WeakSet` of live
bridges becomes a list of connection identifiers, and every side
effect performed on a socket or a pending promise is reified as an
emitted `HubAction`.  -/

/-- Ready states of a connection in the `ws` package. -/
inductive ReadyState where
  | CONNECTING
  | OPEN
  | CLOSING
  | CLOSED
deriving DecidableEq, Repr

/-- A WebSocket connection object: an identity plus its ready state. -/
structure Conn where
  id : Nat
  readyState : ReadyState
deriving DecidableEq, Repr

/-- JavaScript `Map.get`. -/
def getAssoc {α : Type} (k : String) : List (String × α) → Option α
  | [] => none
  | (k', v) :: rest => if k' = k then some v else getAssoc k rest

/-- JavaScript `Map.set`: replace in place when the key is present, else append. -/
def setAssoc {α : Type} (k : String) (v : α) : List (String × α) → List (String × α)
  | [] => [(k, v)]
  | (k', v') :: rest =>
      if k' = k then (k, v) :: rest else (k', v') :: setAssoc k v rest

/-- JavaScript `Map.delete`: remove the key's entry. -/
def delAssoc {α : Type} (k : String) (m : List (String × α)) : List (String × α) :=
  m.filter (fun e => !(e.1 = k : Bool))

/-- JavaScript `Set.add` on an identifier set. -/
def addId (i : Nat) (s : List Nat) : List Nat :=
  if i ∈ s then s else s ++ [i]

/-- JavaScript `Set.delete` on an identifier set. -/
def delId (i : Nat) (s : List Nat) : List Nat :=
  s.filter (fun j => !(j = i : Bool))

/-- JavaScript `Map.set` on the set of pending request identifiers. -/
def addPending (id : String) (p : List String) : List String :=
  if id ∈ p then p else p ++ [id]

/-- JavaScript `Map.delete` on the set of pending request identifiers. -/
def delPending (id : String) (p : List String) : List String :=
  p.filter (fun j => !(j = id : Bool))

/-- The reified side effects of the hub (socket and promise operations). -/
inductive HubAction where
  | closeConn (connId : Nat) (code : Nat) (reason : String)
  | terminateConn (connId : Nat)
  | pingConn (connId : Nat)
  | sendCmd (connId : Nat) (cmdId : String)
  | resolvePending (id : String) (result : String) (error : Option String)
  | rejectPending (id : String) (message : String)
  | broadcastResult (page : String) (id : String)
deriving DecidableEq, Repr

/-- The hub's mutable state in `setupWebSocket`: the `page -> ws` bridge
map, the `aliveBridges` liveness set, and the keys of `pendingEvals`. -/
structure HubState where
  skyeyesBridges : List (String × Conn)
  aliveBridges : List Nat
  pendingEvals : List String
deriving DecidableEq, Repr

/-- The `/skyeyes` branch of `wss.on("connection")`: close a stale
connection holding the same page with code 4000 and reason `"replaced"`,
install the new one, and mark it alive. -/
def registerBridge (page : String) (ws : Conn) (s : HubState) :
    HubState × List HubAction :=
  let acts :=
    match getAssoc page s.skyeyesBridges with
    | some oldWs =>
        if oldWs ≠ ws then [HubAction.closeConn oldWs.id 4000 "replaced"] else []
    | none => []
  ({ s with
      skyeyesBridges := setAssoc page ws s.skyeyesBridges
      aliveBridges := addId ws.id s.aliveBridges }, acts)

/-- The `skyeyes_result` branch of the bridge message handler: resolve and
delete the pending entry when present, then broadcast to the dashboard. -/
def handleSkyeyesResult (page : String) (id result : String)
    (error : Option String) (pending : List String) :
    List String × List HubAction :=
  if id ∈ pending then
    (delPending id pending,
      [HubAction.resolvePending id result error,
       HubAction.broadcastResult page id])
  else (pending, [HubAction.broadcastResult page id])

/-- The bridge `close` handler: remove the page's registry entry only when
it still refers to the closing connection itself. -/
def handleBridgeClose (page : String) (ws : Conn)
    (m : List (String × Conn)) : List (String × Conn) :=
  if getAssoc page m = some ws then delAssoc page m else m

/-- One sweep of `bridgePingTimer`: connections without a pong since the
last ping are unregistered and terminated; the rest lose their alive mark
and are pinged.  `pendingEvals` is not touched by the sweep. -/
def sweepBridges : List (String × Conn) → List Nat →
    List (String × Conn) × List Nat × List HubAction
  | [], alive => ([], alive, [])
  | (page, ws) :: rest, alive =>
      if ws.id ∈ alive then
        let r := sweepBridges rest (delId ws.id alive)
        ((page, ws) :: r.1, r.2.1, HubAction.pingConn ws.id :: r.2.2)
      else
        let r := sweepBridges rest alive
        (r.1, r.2.1, HubAction.terminateConn ws.id :: r.2.2)

/-- The heartbeat sweep on the whole hub state. -/
def heartbeatSweep (s : HubState) : HubState × List HubAction :=
  let r := sweepBridges s.skyeyesBridges s.aliveBridges
  ({ skyeyesBridges := r.1
     aliveBridges := r.2.1
     pendingEvals := s.pendingEvals }, r.2.2)

/-- The function `getSkyeyesStatus`: each registered page mapped to whether its
connection's ready state is `OPEN`. -/
def getSkyeyesStatus (s : HubState) : List (String × Bool) :=
  s.skyeyesBridges.map (fun e => (e.1, e.2.readyState = ReadyState.OPEN))

/-- The function `sendToSkyeyes` as a predicate: a send succeeds exactly when the page
has a registered connection whose ready state is `OPEN`. -/
def sendToSkyeyesOk (page : String) (s : HubState) : Bool :=
  match getAssoc page s.skyeyesBridges with
  | none => false
  | some ws => ws.readyState = ReadyState.OPEN

/-- The registration step of `waitForSkyeyesResult`: install the pending entry. -/
def registerPending (id : String) (s : HubState) : HubState :=
  { s with pendingEvals := addPending id s.pendingEvals }

/-- The timeout callback inside `waitForSkyeyesResult`: delete the pending
entry and reject that caller's promise with the timeout error. -/
def timeoutFire (page : String) (id : String) (s : HubState) :
    HubState × List HubAction :=
  ({ s with pendingEvals := delPending id s.pendingEvals },
    [HubAction.rejectPending id ("Skyeyes eval timed out for page " ++ page)])

/-! Section: the exec route, POST /api/skyeyes/:page/exec — src/server/routes.ts. -/

/-- Responses of the exec route that the embedding distinguishes. -/
inductive ExecResp where
  | badRequest
  | noBridge (page : String)
  | awaiting (id : String)
deriving DecidableEq, Repr

/-- The route `POST /api/skyeyes/:page/exec`: reject missing code with 400; when
`sendToSkyeyes` fails, answer 503 without touching `pendingEvals`;
otherwise send the command and register the pending entry that
`waitForSkyeyesResult` installs. -/
def execRoute (page : String) (code : Option String) (id : String)
    (s : HubState) : ExecResp × HubState :=
  match code with
  | none => (ExecResp.badRequest, s)
  | some _ =>
      if sendToSkyeyesOk page s then
        (ExecResp.awaiting id, registerPending id s)
      else (ExecResp.noBridge page, s)

/-! Section: registry event traces, for the most-recent-registration
invariant of the bridge map. -/

/-- Registry events delivered to the hub: a `/skyeyes` connection for a
page, or a `close` event from some connection. -/
inductive BridgeEvent where
  | reg (page : String) (ws : Conn)
  | closeEv (page : String) (ws : Conn)
deriving DecidableEq, Repr

/-- Effect of one registry event on the hub state: a connection runs the
`/skyeyes` registration branch, a close event runs the `close` handler. -/
def stepBridge (s : HubState) : BridgeEvent → HubState
  | BridgeEvent.reg p w => (registerBridge p w s).1
  | BridgeEvent.closeEv p w =>
      { s with skyeyesBridges := handleBridgeClose p w s.skyeyesBridges }

/-- The most recently registered connection for key `k` in an event
trace, starting from default `d`. -/
def lastReg (k : String) (evs : List BridgeEvent) (d : Option Conn) : Option Conn :=
  evs.foldl
    (fun acc e =>
      match e with
      | BridgeEvent.reg p w => if p = k then some w else acc
      | BridgeEvent.closeEv _ _ => acc) d

/-- A hub state with one registered but pong-less bridge for page
`"shiro"` and one pending request routed to it. -/
def hubDeadBridge : HubState :=
  { skyeyesBridges := [("shiro", { id := 1, readyState := ReadyState.OPEN })]
    aliveBridges := []
    pendingEvals := ["req-1"] }

/-- The empty hub state. -/
def hubEmpty : HubState :=
  { skyeyesBridges := [], aliveBridges := [], pendingEvals := [] }

/-- A sample log entry for concrete instantiations. -/
def sampleLogEntry : LogEntry :=
  { timestamp := 0, type := "system", content := "x", toolName := none }

/-! Section: helper lemmas about the map, set and sweep primitives. -/

theorem getAssoc_setAssoc_self {α : Type} (k : String) (v : α)
    (m : List (String × α)) : getAssoc k (setAssoc k v m) = some v := by
  induction m with
  | nil => simp [setAssoc, getAssoc]
  | cons e rest ih =>
      obtain ⟨k', v'⟩ := e
      by_cases h : k' = k
      · simp [setAssoc, h, getAssoc]
      · simp [setAssoc, h, getAssoc, ih]

theorem getAssoc_setAssoc_ne {α : Type} {k k' : String} (h : k' ≠ k) (v : α)
    (m : List (String × α)) : getAssoc k (setAssoc k' v m) = getAssoc k m := by
  induction m with
  | nil => simp [setAssoc, getAssoc, h]
  | cons e rest ih =>
      obtain ⟨k'', v''⟩ := e
      by_cases h2 : k'' = k'
      · subst h2
        simp [setAssoc, getAssoc, h]
      · simp [setAssoc, h2, getAssoc, ih]

theorem getAssoc_delAssoc_self {α : Type} (k : String)
    (m : List (String × α)) : getAssoc k (delAssoc k m) = none := by
  induction m with
  | nil => simp [delAssoc, getAssoc]
  | cons e rest ih =>
      obtain ⟨k', v'⟩ := e
      by_cases h : k' = k
      · simpa [delAssoc, h] using ih
      · simpa [delAssoc, h, getAssoc] using ih

theorem getAssoc_delAssoc_ne {α : Type} {k k' : String} (h : k' ≠ k)
    (m : List (String × α)) : getAssoc k (delAssoc k' m) = getAssoc k m := by
  induction m with
  | nil => simp [delAssoc, getAssoc]
  | cons e rest ih =>
      obtain ⟨k'', v''⟩ := e
      by_cases h2 : k'' = k'
      · subst h2
        have h3 : ¬(k'' = k) := h
        simp_all [delAssoc, getAssoc]
      · by_cases h3 : k'' = k
        · simp_all [delAssoc, getAssoc]
        · simp_all [delAssoc, getAssoc]

theorem getAssoc_none_of_not_mem {α : Type} {k : String}
    {m : List (String × α)} (h : k ∉ m.map Prod.fst) : getAssoc k m = none := by
  induction m with
  | nil => rfl
  | cons e rest ih =>
      obtain ⟨k', v'⟩ := e
      simp only [List.map_cons, List.mem_cons, not_or] at h
      have h1 : k' ≠ k := fun he => h.1 he.symm
      simp [getAssoc, h1, ih h.2]

theorem getAssoc_map {α β : Type} (k : String) (f : α → β)
    (m : List (String × α)) :
    getAssoc k (m.map (fun e => (e.1, f e.2))) = (getAssoc k m).map f := by
  induction m with
  | nil => rfl
  | cons e rest ih =>
      obtain ⟨k', v'⟩ := e
      by_cases h : k' = k
      · simp [getAssoc, h]
      · simp [getAssoc, h, ih]

theorem mem_delId {i j : Nat} {s : List Nat} :
    j ∈ delId i s ↔ j ∈ s ∧ j ≠ i := by
  simp [delId]

theorem not_mem_delPending (id : String) (p : List String) :
    id ∉ delPending id p := by
  simp [delPending]

theorem mem_delPending_ne {j id : String} (h : j ≠ id) (p : List String) :
    j ∈ delPending id p ↔ j ∈ p := by
  simp [delPending, h]

theorem sweepBridges_acts_shape (m : List (String × Conn)) (alive : List Nat) :
    ∀ a ∈ (sweepBridges m alive).2.2,
      (∃ i, a = HubAction.pingConn i) ∨ (∃ i, a = HubAction.terminateConn i) := by
  induction m generalizing alive with
  | nil => intro a ha; simp [sweepBridges] at ha
  | cons e rest ih =>
      obtain ⟨p, w⟩ := e
      intro a ha
      by_cases h : w.id ∈ alive
      · simp only [sweepBridges, if_pos h, List.mem_cons] at ha
        rcases ha with rfl | ha
        · exact Or.inl ⟨w.id, rfl⟩
        · exact ih _ a ha
      · simp only [sweepBridges, if_neg h, List.mem_cons] at ha
        rcases ha with rfl | ha
        · exact Or.inr ⟨w.id, rfl⟩
        · exact ih _ a ha

theorem sweepBridges_keys_sub (m : List (String × Conn)) (alive : List Nat) :
    ∀ p, p ∈ ((sweepBridges m alive).1.map Prod.fst) → p ∈ m.map Prod.fst := by
  induction m generalizing alive with
  | nil => intro p hp; simp [sweepBridges] at hp
  | cons e rest ih =>
      obtain ⟨q, w⟩ := e
      intro p hp
      by_cases h : w.id ∈ alive
      · simp only [sweepBridges, if_pos h, List.map_cons, List.mem_cons] at hp
        rcases hp with rfl | hp
        · exact List.mem_cons_self _ _
        · exact List.mem_cons_of_mem _ (ih _ p hp)
      · simp only [sweepBridges, if_neg h] at hp
        exact List.mem_cons_of_mem _ (ih _ p hp)

theorem sweepBridges_dead (m : List (String × Conn)) (alive : List Nat)
    (page : String) (ws : Conn) (hnd : (m.map Prod.fst).Nodup)
    (hget : getAssoc page m = some ws) (hdead : ws.id ∉ alive) :
    getAssoc page (sweepBridges m alive).1 = none ∧
      HubAction.terminateConn ws.id ∈ (sweepBridges m alive).2.2 := by
  induction m generalizing alive with
  | nil => simp [getAssoc] at hget
  | cons e rest ih =>
      obtain ⟨q, w⟩ := e
      simp only [List.map_cons, List.nodup_cons] at hnd
      by_cases hq : q = page
      · subst hq
        have hw : w = ws := by simpa [getAssoc] using hget
        subst hw
        have hnot : ¬w.id ∈ alive := hdead
        refine ⟨?_, ?_⟩
        · rw [sweepBridges, if_neg hnot]
          exact getAssoc_none_of_not_mem
            (fun hin => hnd.1 (sweepBridges_keys_sub rest alive _ hin))
        · rw [sweepBridges, if_neg hnot]
          exact List.mem_cons_self _ _
      · have hget' : getAssoc page rest = some ws := by
          simpa [getAssoc, hq] using hget
        by_cases h : w.id ∈ alive
        · have hdead' : ws.id ∉ delId w.id alive := fun hin =>
            hdead (mem_delId.mp hin).1
          have := ih (delId w.id alive) hnd.2 hget' hdead'
          refine ⟨?_, ?_⟩
          · rw [sweepBridges, if_pos h]
            simpa [getAssoc, hq] using this.1
          · rw [sweepBridges, if_pos h]
            exact List.mem_cons_of_mem _ this.2
        · have := ih alive hnd.2 hget' hdead
          refine ⟨?_, ?_⟩
          · rw [sweepBridges, if_neg h]
            exact this.1
          · rw [sweepBridges, if_neg h]
            exact List.mem_cons_of_mem _ this.2

theorem detectStatus_interrupted (s : Str) :
    detectStatus WorkerStatus.interrupted s = WorkerStatus.interrupted := by
  simp [detectStatus]

theorem addLog_length_le {maxE : Nat} (h : 1 ≤ maxE) (log : List LogEntry)
    (e : LogEntry) : (addLog maxE log e).length ≤ maxE := by
  unfold addLog jsSliceLast
  by_cases hlt : maxE < (log ++ [e]).length
  · rw [if_pos hlt, if_neg (by omega)]
    simp only [List.length_drop]
    omega
  · rw [if_neg hlt]
    omega

theorem lastReg_cons_reg (k p : String) (w : Conn) (evs : List BridgeEvent)
    (d : Option Conn) :
    lastReg k (BridgeEvent.reg p w :: evs) d
      = lastReg k evs (if p = k then some w else d) := rfl

theorem lastReg_cons_close (k p : String) (w : Conn) (evs : List BridgeEvent)
    (d : Option Conn) :
    lastReg k (BridgeEvent.closeEv p w :: evs) d = lastReg k evs d := rfl

theorem lastReg_none_mono {k : String} {evs : List BridgeEvent} {c : Conn}
    (h : lastReg k evs none = some c) (d : Option Conn) :
    lastReg k evs d = some c := by
  induction evs generalizing d with
  | nil => simp [lastReg] at h
  | cons e evs ih =>
      cases e with
      | reg p w =>
          rw [lastReg_cons_reg] at h ⊢
          by_cases hp : p = k
          · rw [if_pos hp] at h ⊢
            exact h
          · rw [if_neg hp] at h ⊢
            exact ih h d
      | closeEv p w =>
          rw [lastReg_cons_close] at h ⊢
          exact ih h d

theorem bridges_lastReg (evs : List BridgeEvent) (s : HubState) (k : String)
    (c : Conn)
    (h : getAssoc k ((evs.foldl stepBridge s).skyeyesBridges) = some c) :
    lastReg k evs (getAssoc k s.skyeyesBridges) = some c := by
  induction evs generalizing s with
  | nil => simpa [lastReg] using h
  | cons e evs ih =>
      have hstep := ih (stepBridge s e) (by simpa using h)
      cases e with
      | reg p w =>
          rw [lastReg_cons_reg]
          by_cases hp : p = k
          · subst hp
            have hg : getAssoc p ((stepBridge s (BridgeEvent.reg p w)).skyeyesBridges)
                = some w := by
              simp [stepBridge, registerBridge, getAssoc_setAssoc_self]
            rw [hg] at hstep
            rw [if_pos rfl]
            exact hstep
          · have hg : getAssoc k ((stepBridge s (BridgeEvent.reg p w)).skyeyesBridges)
                = getAssoc k s.skyeyesBridges := by
              simp [stepBridge, registerBridge, getAssoc_setAssoc_ne hp]
            rw [hg] at hstep
            rw [if_neg hp]
            exact hstep
      | closeEv p w =>
          rw [lastReg_cons_close]
          by_cases hcl : getAssoc p s.skyeyesBridges = some w
          · by_cases hp : p = k
            · subst hp
              have : getAssoc p ((stepBridge s (BridgeEvent.closeEv p w)).skyeyesBridges)
                  = none := by
                simp [stepBridge, handleBridgeClose, hcl, getAssoc_delAssoc_self]
              rw [this] at hstep
              exact lastReg_none_mono hstep _
            · have : getAssoc k ((stepBridge s (BridgeEvent.closeEv p w)).skyeyesBridges)
                  = getAssoc k s.skyeyesBridges := by
                simp [stepBridge, handleBridgeClose, hcl, getAssoc_delAssoc_ne hp]
              rw [this] at hstep
              exact hstep
          · have : getAssoc k ((stepBridge s (BridgeEvent.closeEv p w)).skyeyesBridges)
                = getAssoc k s.skyeyesBridges := by
              simp [stepBridge, handleBridgeClose, hcl]
            rw [this] at hstep
            exact hstep

/-! Section: claims about the session capture loop (Worker.ts). -/

/-- C4: screen differencing per capture tick.  When the previous
blank-line-filtered rendered text is a prefix of the new
blank-line-filtered rendered text, the emitted log content is exactly the
suffix after that prefix (for previous `"a\nb\nc"` and new
`"a\nb\nc\nd"`, exactly `"d"`, the code trimming the separating
newline); when it is not a prefix, the emitted content is the entire new
text (for non-continuation new text `"x\ny"`, the full `"x\ny"`). -/
theorem captureOutput_screen_diff :
    captureEmitS "a\nb\nc" "a\nb\nc\nd" = some "d" ∧
    captureEmitS "a\nb\nc" "x\ny" = some "x\ny" ∧
    (∀ prev new_ : Str, prev.isEmpty = false →
      (filterJoin prev).isPrefixOf (filterJoin new_) = true →
      computeNewContent prev new_
        = jsTrim ((filterJoin new_).drop (filterJoin prev).length)) ∧
    (∀ prev new_ : Str, prev.isEmpty = false →
      (filterJoin prev).isPrefixOf (filterJoin new_) = false →
      computeNewContent prev new_ = filterJoin new_) := by
  refine ⟨by decide, by decide, ?_, ?_⟩
  · intro prev new_ h1 h2
    simp [computeNewContent, h1, h2]
  · intro prev new_ h1 h2
    simp [computeNewContent, h1, h2]

/-- Witness for C4 at the concrete screens of the claim. -/
theorem captureOutput_screen_diff_witness :
    computeNewContent "a\nb\nc".data "a\nb\nc\nd".data
      = jsTrim ((filterJoin "a\nb\nc\nd".data).drop (filterJoin "a\nb\nc".data).length) ∧
    computeNewContent "a\nb\nc".data "x\ny".data = filterJoin "x\ny".data :=
  ⟨captureOutput_screen_diff.2.2.1 _ _ (by decide) (by decide),
   captureOutput_screen_diff.2.2.2 _ _ (by decide) (by decide)⟩

/-- C5 counterexample: the tail lines `["Reading file...", "> "]` do
not classify as busy.  `"Reading"` does not match the whole-word pattern
`\bRead\b`, so the classifier sees a prompt marker and no tool token and
moves a working worker to idle. -/
theorem detectStatus_reading_tail_not_busy :
    detectStatusS WorkerStatus.working "Reading file...\n> " = WorkerStatus.idle ∧
    detectStatusS WorkerStatus.working "Reading file...\n> " ≠ WorkerStatus.working := by
  decide

/-- C5 (amended): trailing lines containing an interactive-prompt marker
and no recognized tool-name token classify as idle; trailing lines
containing a recognized whole-word tool-name token classify as busy, busy
taking precedence when both marker kinds are present (for example tail
lines `["Read(src/index.ts)", "> "]`); the tail lines
`["Reading file...", "> "]` contain no whole-word tool token and
therefore classify as idle, not busy. -/
theorem detectStatus_classification :
    (∀ st s, st ≠ WorkerStatus.idle → st ≠ WorkerStatus.interrupted →
      (tailLines (screenLines s)).any promptLine = true →
      (tailLines (screenLines s)).any toolLine = false →
      detectStatus st s = WorkerStatus.idle) ∧
    (∀ s, (tailLines (screenLines s)).any toolLine = true →
      detectStatus WorkerStatus.idle s = WorkerStatus.working) ∧
    detectStatusS WorkerStatus.idle "Read(src/index.ts)\n> " = WorkerStatus.working ∧
    toolLine "Reading file...".data = false ∧
    detectStatusS WorkerStatus.working "Reading file...\n> " = WorkerStatus.idle := by
  refine ⟨?_, ?_, by decide, by decide, by decide⟩
  · intro st s h1 h2 hp ht
    have hne : (screenLines s).isEmpty = false := by
      cases hl : (screenLines s).isEmpty
      · rfl
      · exfalso
        rw [List.isEmpty_iff.mp hl] at hp
        simp [tailLines] at hp
    simp [detectStatus, hne, hp, ht, h1, h2]
  · intro s ht
    have hne : (screenLines s).isEmpty = false := by
      cases hl : (screenLines s).isEmpty
      · rfl
      · exfalso
        rw [List.isEmpty_iff.mp hl] at ht
        simp [tailLines] at ht
    simp [detectStatus, hne, ht]

/-- Witness for C5's amended claim at concrete screens. -/
theorem detectStatus_classification_witness :
    detectStatus WorkerStatus.working "output\n❯ ".data = WorkerStatus.idle ∧
    detectStatus WorkerStatus.idle "Bash(ls)".data = WorkerStatus.working :=
  ⟨detectStatus_classification.1 _ _ (by decide) (by decide) (by decide) (by decide),
   detectStatus_classification.2.1 _ (by decide)⟩

/-- C8: once an explicit interrupt puts the worker in the interrupted
state, no classifier tick changes it (the idle branch of `detectStatus`
excludes `"interrupted"` and the busy branch requires `"idle"`); among
classifier ticks and the explicit actions, only `sendMessage` leaves the
interrupted state, setting `"working"`. -/
theorem interrupted_sticky :
    (∀ s, detectStatus WorkerStatus.interrupted s = WorkerStatus.interrupted) ∧
    (∀ ops : List WorkerOp, (∀ op ∈ ops, isSend op = false) →
      ops.foldl applyOp WorkerStatus.interrupted = WorkerStatus.interrupted) ∧
    (∀ st text, applyOp st (WorkerOp.send text) = WorkerStatus.working) := by
  refine ⟨detectStatus_interrupted, ?_, fun st text => rfl⟩
  intro ops h
  induction ops with
  | nil => rfl
  | cons op rest ih =>
      have hop := h op (List.mem_cons_self _ _)
      have hrest : ∀ o ∈ rest, isSend o = false :=
        fun o ho => h o (List.mem_cons_of_mem _ ho)
      cases op with
      | classify s =>
          simp only [List.foldl_cons, applyOp, detectStatus_interrupted]
          exact ih hrest
      | send t => simp [isSend] at hop
      | interrupt =>
          simp only [List.foldl_cons, applyOp]
          exact ih hrest

/-- Witness for C8 with a concrete non-send operation sequence. -/
theorem interrupted_sticky_witness :
    [WorkerOp.classify "Bash(ls)\n> ".data, WorkerOp.interrupt].foldl applyOp
        WorkerStatus.interrupted = WorkerStatus.interrupted :=
  interrupted_sticky.2.1 _ (by decide)

/-- C9: the worker's output log never holds more than `maxLogEntries`
entries: every append through `addLog` truncates to the most recent
`maxLogEntries` entries, so the bound is preserved by any sequence of
appends, and the configuration (`rawConfig.maxLogEntries || 500`)
guarantees `maxLogEntries ≥ 1`. -/
theorem outputLog_bounded :
    (∀ raw, 1 ≤ configMaxLogEntries raw) ∧
    (∀ maxE : Nat, 1 ≤ maxE → ∀ (entries log : List LogEntry),
      log.length ≤ maxE →
      (entries.foldl (addLog maxE) log).length ≤ maxE) := by
  constructor
  · intro raw
    unfold configMaxLogEntries
    by_cases h : raw = 0
    · simp [h]
    · rw [if_neg h]
      omega
  · intro maxE hmax entries
    induction entries with
    | nil => intro log hlog; exact hlog
    | cons e rest ih =>
        intro log hlog
        exact ih _ (addLog_length_le hmax log e)

/-- Witness for C9: three appends against a bound of two. -/
theorem outputLog_bounded_witness :
    1 ≤ configMaxLogEntries 0 ∧
    ([sampleLogEntry, sampleLogEntry, sampleLogEntry].foldl (addLog 2) []).length ≤ 2 :=
  ⟨outputLog_bounded.1 0, outputLog_bounded.2 2 (by decide) _ [] (by decide)⟩

/-! Section: claims about the correlation hub (ws.ts, routes.ts). -/

/-- C1 counterexample: a sweep over a hub with one pong-less bridge for
page `"shiro"` and one pending request routed to it leaves the pending
entry in place and emits only a terminate action — no pending request is
rejected with a connection-lost error, and `status()` afterwards has no
entry at all for the endpoint. -/
theorem heartbeat_sweep_counterexample :
    (heartbeatSweep hubDeadBridge).1.pendingEvals = ["req-1"] ∧
    (heartbeatSweep hubDeadBridge).2 = [HubAction.terminateConn 1] ∧
    getAssoc "shiro" (heartbeatSweep hubDeadBridge).1.skyeyesBridges = none ∧
    getAssoc "shiro" (getSkyeyesStatus (heartbeatSweep hubDeadBridge).1) = none := by
  decide

/-- C1 (amended): if no pong has been received from an endpoint
connection between two consecutive sweeps, the sweep forcibly closes
(terminates) and unregisters it and `status()` afterwards has no entry
for that endpoint; the sweep leaves `pendingEvals` untouched and rejects
or resolves nothing — pending requests against the endpoint fail later
through their individual timeouts instead. -/
theorem heartbeat_sweep_dead :
    ∀ (s : HubState) (page : String) (ws : Conn),
      (heartbeatSweep s).1.pendingEvals = s.pendingEvals ∧
      (∀ a ∈ (heartbeatSweep s).2,
        (∀ id msg, a ≠ HubAction.rejectPending id msg) ∧
        (∀ id r e, a ≠ HubAction.resolvePending id r e)) ∧
      ((s.skyeyesBridges.map Prod.fst).Nodup →
        getAssoc page s.skyeyesBridges = some ws →
        ws.id ∉ s.aliveBridges →
        getAssoc page (heartbeatSweep s).1.skyeyesBridges = none ∧
        getAssoc page (getSkyeyesStatus (heartbeatSweep s).1) = none ∧
        HubAction.terminateConn ws.id ∈ (heartbeatSweep s).2) := by
  intro s page ws
  refine ⟨rfl, ?_, ?_⟩
  · intro a ha
    rcases sweepBridges_acts_shape s.skyeyesBridges s.aliveBridges a ha with
      ⟨i, rfl⟩ | ⟨i, rfl⟩
    · exact ⟨fun id msg h => HubAction.noConfusion h,
        fun id r e h => HubAction.noConfusion h⟩
    · exact ⟨fun id msg h => HubAction.noConfusion h,
        fun id r e h => HubAction.noConfusion h⟩
  · intro hnd hget hdead
    have hmain := sweepBridges_dead s.skyeyesBridges s.aliveBridges page ws hnd hget hdead
    refine ⟨hmain.1, ?_, hmain.2⟩
    have hm := getAssoc_map page
      (fun c : Conn => (c.readyState = ReadyState.OPEN : Bool))
      (heartbeatSweep s).1.skyeyesBridges
    unfold getSkyeyesStatus
    rw [hm]
    have h1 : getAssoc page (heartbeatSweep s).1.skyeyesBridges = none := hmain.1
    rw [h1]
    rfl

/-- Witness for C1's amended claim at the concrete dead-bridge hub. -/
theorem heartbeat_sweep_dead_witness :
    getAssoc "shiro" (heartbeatSweep hubDeadBridge).1.skyeyesBridges = none ∧
    getAssoc "shiro" (getSkyeyesStatus (heartbeatSweep hubDeadBridge).1) = none ∧
    HubAction.terminateConn 1 ∈ (heartbeatSweep hubDeadBridge).2 :=
  (heartbeat_sweep_dead hubDeadBridge "shiro"
    { id := 1, readyState := ReadyState.OPEN }).2.2 (by decide) (by decide) (by decide)

/-- C2: delivering a completion twice has the same observable effect on
the pending map and the callers as delivering it once — the first
delivery with a present entry resolves the handle and removes the entry,
a delivery for an absent requestID changes no pending state and resolves
nothing, and in particular the second of two deliveries is discarded
silently. -/
theorem completeRequest_idempotent :
    ∀ (page id result : String) (error : Option String) (pending : List String),
      (handleSkyeyesResult page id result error
          (handleSkyeyesResult page id result error pending).1).1
        = (handleSkyeyesResult page id result error pending).1 ∧
      (∀ res err, HubAction.resolvePending id res err ∉
        (handleSkyeyesResult page id result error
          (handleSkyeyesResult page id result error pending).1).2) ∧
      (id ∈ pending →
        HubAction.resolvePending id result error ∈
            (handleSkyeyesResult page id result error pending).2 ∧
          id ∉ (handleSkyeyesResult page id result error pending).1) ∧
      (id ∉ pending →
        (handleSkyeyesResult page id result error pending).1 = pending ∧
        ∀ res err, HubAction.resolvePending id res err ∉
          (handleSkyeyesResult page id result error pending).2) := by
  intro page id result error pending
  by_cases hmem : id ∈ pending
  · have hp1 : handleSkyeyesResult page id result error pending
        = (delPending id pending,
            [HubAction.resolvePending id result error,
             HubAction.broadcastResult page id]) := by
      simp [handleSkyeyesResult, hmem]
    have hnot := not_mem_delPending id pending
    have hp2 : handleSkyeyesResult page id result error (delPending id pending)
        = (delPending id pending, [HubAction.broadcastResult page id]) := by
      simp [handleSkyeyesResult, hnot]
    refine ⟨?_, ?_, fun _ => ⟨?_, ?_⟩, fun hn => absurd hmem hn⟩
    · rw [hp1]
      simp [hp2]
    · intro res err
      rw [hp1]
      simp [hp2]
    · rw [hp1]
      simp
    · rw [hp1]
      simpa using hnot
  · have hp1 : handleSkyeyesResult page id result error pending
        = (pending, [HubAction.broadcastResult page id]) := by
      simp [handleSkyeyesResult, hmem]
    refine ⟨?_, ?_, fun hmem2 => absurd hmem2 hmem, fun _ => ⟨by rw [hp1], ?_⟩⟩
    · rw [hp1]
      simp [hp1]
    · intro res err
      rw [hp1]
      simp [hp1]
    · intro res err
      rw [hp1]
      simp

/-- Witness for C2 at a concrete pending map. -/
theorem completeRequest_idempotent_witness :
    HubAction.resolvePending "r1" "ok" none ∈
        (handleSkyeyesResult "shiro" "r1" "ok" none ["r1"]).2 ∧
      "r1" ∉ (handleSkyeyesResult "shiro" "r1" "ok" none ["r1"]).1 :=
  (completeRequest_idempotent "shiro" "r1" "ok" none ["r1"]).2.2.1 (by decide)

/-- C3: registering connection A under a key and then registering
connection B under the same key leaves B as the sole connection the
registry holds for that key (so `status()` reports the key live when B's
socket is open), while A is closed with the distinguishing code 4000 and
reason `"replaced"`; between the two registrations A alone holds the
key, so at no instant are both considered live. -/
theorem register_replaces_stale :
    ∀ (k : String) (A B : Conn) (s : HubState), A ≠ B →
      getAssoc k (registerBridge k A s).1.skyeyesBridges = some A ∧
      getAssoc k (registerBridge k B (registerBridge k A s).1).1.skyeyesBridges
        = some B ∧
      (registerBridge k B (registerBridge k A s).1).2
        = [HubAction.closeConn A.id 4000 "replaced"] ∧
      (B.readyState = ReadyState.OPEN →
        getAssoc k (getSkyeyesStatus (registerBridge k B (registerBridge k A s).1).1)
          = some true) := by
  intro k A B s hAB
  have hg1 : getAssoc k (registerBridge k A s).1.skyeyesBridges = some A :=
    getAssoc_setAssoc_self k A s.skyeyesBridges
  have hg2 : getAssoc k (registerBridge k B (registerBridge k A s).1).1.skyeyesBridges
      = some B :=
    getAssoc_setAssoc_self k B (registerBridge k A s).1.skyeyesBridges
  refine ⟨hg1, hg2, ?_, ?_⟩
  · have hg1' : getAssoc k (setAssoc k A s.skyeyesBridges) = some A :=
      getAssoc_setAssoc_self k A s.skyeyesBridges
    simp [registerBridge, hg1', hAB]
  · intro hB
    have hm := getAssoc_map k
      (fun c : Conn => (c.readyState = ReadyState.OPEN : Bool))
      (registerBridge k B (registerBridge k A s).1).1.skyeyesBridges
    unfold getSkyeyesStatus
    rw [hm, hg2]
    simp [hB]

/-- Witness for C3 with two concrete connections. -/
theorem register_replaces_stale_witness :
    getAssoc "shiro"
        (registerBridge "shiro" { id := 2, readyState := ReadyState.OPEN }
          (registerBridge "shiro" { id := 1, readyState := ReadyState.OPEN }
            hubEmpty).1).1.skyeyesBridges
      = some { id := 2, readyState := ReadyState.OPEN } ∧
    (registerBridge "shiro" { id := 2, readyState := ReadyState.OPEN }
        (registerBridge "shiro" { id := 1, readyState := ReadyState.OPEN }
          hubEmpty).1).2
      = [HubAction.closeConn 1 4000 "replaced"] :=
  ⟨(register_replaces_stale "shiro" _ _ hubEmpty (by decide)).2.1,
   (register_replaces_stale "shiro" _ _ hubEmpty (by decide)).2.2.1⟩

/-- C6: an exec request against a page with no registered open
connection answers with the bridge-not-connected error and returns the
hub state unchanged — in particular `pendingEvals` holds exactly the
same entries after the call as before it; and a page absent from the
registry always fails the send. -/
theorem routeRequest_no_endpoint :
    ∀ (page code id : String) (s : HubState),
      (getAssoc page s.skyeyesBridges = none → sendToSkyeyesOk page s = false) ∧
      (sendToSkyeyesOk page s = false →
        execRoute page (some code) id s = (ExecResp.noBridge page, s)) := by
  intro page code id s
  constructor
  · intro h
    simp [sendToSkyeyesOk, h]
  · intro h
    simp [execRoute, h]

/-- Witness for C6 against the empty hub. -/
theorem routeRequest_no_endpoint_witness :
    execRoute "shiro" (some "1+1") "id-1" hubEmpty
      = (ExecResp.noBridge "shiro", hubEmpty) :=
  (routeRequest_no_endpoint "shiro" "1+1" "id-1" hubEmpty).2
    ((routeRequest_no_endpoint "shiro" "1+1" "id-1" hubEmpty).1 (by decide))

/-- C7: when a routed request times out, only that caller's handle is
rejected (with the timeout error), the bridge registry and liveness set
are untouched, membership of every other pending id is unchanged, and a
completion arriving later for the timed-out requestID is discarded
silently — the handler only broadcasts and emits no rejection. -/
theorem timeout_frame :
    ∀ (page id : String) (s : HubState),
      (timeoutFire page id s).1.skyeyesBridges = s.skyeyesBridges ∧
      (timeoutFire page id s).1.aliveBridges = s.aliveBridges ∧
      (timeoutFire page id s).2
        = [HubAction.rejectPending id ("Skyeyes eval timed out for page " ++ page)] ∧
      (∀ j, j ≠ id →
        ((j ∈ (timeoutFire page id s).1.pendingEvals) ↔ j ∈ s.pendingEvals)) ∧
      (∀ (page₂ result : String) (error : Option String),
        handleSkyeyesResult page₂ id result error (timeoutFire page id s).1.pendingEvals
          = ((timeoutFire page id s).1.pendingEvals,
              [HubAction.broadcastResult page₂ id])) := by
  intro page id s
  refine ⟨rfl, rfl, rfl, ?_, ?_⟩
  · intro j hj
    exact mem_delPending_ne hj _
  · intro page₂ result error
    have hnot : id ∉ (timeoutFire page id s).1.pendingEvals :=
      not_mem_delPending id _
    simp [handleSkyeyesResult, hnot]

/-- Witness for C7 at a hub holding the timed-out request. -/
theorem timeout_frame_witness :
    handleSkyeyesResult "shiro" "id-9" "ok" none
        (timeoutFire "shiro" "id-9" (registerPending "id-9" hubEmpty)).1.pendingEvals
      = ((timeoutFire "shiro" "id-9" (registerPending "id-9" hubEmpty)).1.pendingEvals,
          [HubAction.broadcastResult "shiro" "id-9"]) ∧
    (("x" ∈ (timeoutFire "shiro" "id-9" (registerPending "id-9" hubEmpty)).1.pendingEvals)
        ↔ "x" ∈ (registerPending "id-9" hubEmpty).pendingEvals) :=
  ⟨(timeout_frame "shiro" "id-9" (registerPending "id-9" hubEmpty)).2.2.2.2
      "shiro" "ok" none,
   (timeout_frame "shiro" "id-9" (registerPending "id-9" hubEmpty)).2.2.2.1
      "x" (by decide)⟩

/-- C10: the bridge close handler removes a key's registry entry only
when that entry still refers to the closing connection itself, so the
close of a superseded connection does not unregister its replacement;
consequently, over any trace of registration and close events starting
from the empty hub, a key's registry entry is always the most recently
registered connection under that key. -/
theorem close_removes_only_self :
    ∀ (k : String) (A B : Conn) (m : List (String × Conn)) (s : HubState)
      (evs : List BridgeEvent) (c : Conn),
      (getAssoc k m ≠ some A → handleBridgeClose k A m = m) ∧
      (getAssoc k m = some A → getAssoc k (handleBridgeClose k A m) = none) ∧
      (A ≠ B →
        handleBridgeClose k A
            (registerBridge k B (registerBridge k A s).1).1.skyeyesBridges
          = (registerBridge k B (registerBridge k A s).1).1.skyeyesBridges ∧
        getAssoc k (handleBridgeClose k A
            (registerBridge k B (registerBridge k A s).1).1.skyeyesBridges)
          = some B) ∧
      (getAssoc k ((evs.foldl stepBridge hubEmpty).skyeyesBridges) = some c →
        lastReg k evs none = some c) := by
  intro k A B m s evs c
  refine ⟨?_, ?_, ?_, ?_⟩
  · intro h
    unfold handleBridgeClose
    rw [if_neg h]
  · intro h
    unfold handleBridgeClose
    rw [if_pos h]
    exact getAssoc_delAssoc_self k m
  · intro hAB
    have hB : getAssoc k
        (registerBridge k B (registerBridge k A s).1).1.skyeyesBridges = some B :=
      getAssoc_setAssoc_self k B (registerBridge k A s).1.skyeyesBridges
    have hne : getAssoc k
        (registerBridge k B (registerBridge k A s).1).1.skyeyesBridges ≠ some A := by
      rw [hB]
      intro hc
      exact hAB (Option.some.inj hc).symm
    have heq : handleBridgeClose k A
        (registerBridge k B (registerBridge k A s).1).1.skyeyesBridges
        = (registerBridge k B (registerBridge k A s).1).1.skyeyesBridges := by
      unfold handleBridgeClose
      rw [if_neg hne]
    exact ⟨heq, by rw [heq]; exact hB⟩
  · intro h
    have hlast := bridges_lastReg evs hubEmpty k c h
    simpa [hubEmpty, getAssoc] using hlast

/-- Witness for C10: the superseded connection's close leaves the
replacement registered. -/
theorem close_removes_only_self_witness :
    getAssoc "shiro" (handleBridgeClose "shiro"
        { id := 1, readyState := ReadyState.OPEN }
        (registerBridge "shiro" { id := 2, readyState := ReadyState.OPEN }
          (registerBridge "shiro" { id := 1, readyState := ReadyState.OPEN }
            hubEmpty).1).1.skyeyesBridges)
      = some { id := 2, readyState := ReadyState.OPEN } :=
  ((close_removes_only_self "shiro" _ _ [] hubEmpty []
      { id := 0, readyState := ReadyState.OPEN }).2.2.1 (by decide)).2

end Nimbus
